import Mathlib

/-!
# Verification of the from-scratch Transformer implementation

Shallow embedding of the numerical core of `src/transformer.ipynb`
(the annotated-Transformer architecture: scaled dot-product attention,
multi-head attention, layer normalization, pre-norm sublayer connections,
encoder/decoder stacks, positional encoding, causal masking).

Tensors are embedded with their two trailing axes explicit, as functions
`Fin rows → Fin cols → ℝ` (`Matrix (Fin m) (Fin n) ℝ`): every operation the
claims concern (`matmul` on the last two axes, `softmax(dim=-1)`,
`masked_fill`, per-row mean/std, elementwise affine) acts pointwise on all
leading batch/head axes, so a leading batch axis is a pointwise map and is
dropped without loss.  Real numbers stand for the floating-point values;
`torch.exp/sqrt/sin/cos` become `Real.exp/sqrt/sin/cos`.  `nn.Dropout`,
which the source passes around as a module value and applies as a function,
is embedded as an explicit function argument (`Option` of a function, since
the source guards `if dropout is not None`).
-/

open scoped BigOperators

/-- Row-wise softmax over the last axis, the meaning of
`scores.softmax(dim=-1)`: entry `(i, j)` is `exp s(i,j) / Σ_k exp s(i,k)`. -/
noncomputable def softmaxLast {Lq Lk : ℕ} (s : Matrix (Fin Lq) (Fin Lk) ℝ) :
    Matrix (Fin Lq) (Fin Lk) ℝ :=
  fun i j => Real.exp (s i j) / ∑ k, Real.exp (s i k)

/-- The expression `torch.matmul(query, key.transpose(-2, -1)) / math.sqrt(d_k)` from
`attention` (src/transformer.ipynb, `attention`): raw scaled dot-product
scores.  `d_k = query.size(-1)` is the last axis of `query`. -/
noncomputable def attnScores {Lq Lk dk : ℕ} (query : Matrix (Fin Lq) (Fin dk) ℝ)
    (key : Matrix (Fin Lk) (Fin dk) ℝ) : Matrix (Fin Lq) (Fin Lk) ℝ :=
  fun i j => (∑ t, query i t * key j t) / Real.sqrt (dk : ℝ)

/-- The expression `scores.masked_fill(mask == 0, -1e9)`: where the boolean mask is false
the score is replaced by the sentinel `-1e9`; elsewhere it is kept. -/
noncomputable def maskedFill {Lq Lk : ℕ} (mask : Fin Lq → Fin Lk → Bool)
    (scores : Matrix (Fin Lq) (Fin Lk) ℝ) : Matrix (Fin Lq) (Fin Lk) ℝ :=
  fun i j => if mask i j then scores i j else -1e9

/-- The function `attention(query, key, value, mask=None, dropout=None)` from
src/transformer.ipynb: scores, optional mask fill, softmax over the key
axis, optional dropout on the weights, and the pair
`(torch.matmul(p_attn, value), p_attn)`. -/
noncomputable def attention {Lq Lk dk dv : ℕ} (query : Matrix (Fin Lq) (Fin dk) ℝ)
    (key : Matrix (Fin Lk) (Fin dk) ℝ) (value : Matrix (Fin Lk) (Fin dv) ℝ)
    (mask : Option (Fin Lq → Fin Lk → Bool))
    (dropout : Option (Matrix (Fin Lq) (Fin Lk) ℝ → Matrix (Fin Lq) (Fin Lk) ℝ)) :
    Matrix (Fin Lq) (Fin dv) ℝ × Matrix (Fin Lq) (Fin Lk) ℝ :=
  let scores := attnScores query key
  let scores := match mask with
    | some m => maskedFill m scores
    | none => scores
  let p_attn := softmaxLast scores
  let p_attn := match dropout with
    | some drop => drop p_attn
    | none => p_attn
  (fun i c => ∑ j, p_attn i j * value j c, p_attn)

/-- The tensor `torch.triu(torch.ones((1, size, size)), diagonal=1)` restricted to the
two trailing axes: entry `(i, j)` of the all-ones matrix is kept when
`j - i ≥ diagonal` and zeroed below that diagonal. -/
def triuOnes (size : ℕ) (diagonal : ℤ) : Fin size → Fin size → ℕ :=
  fun i j => if diagonal ≤ (j : ℤ) - (i : ℤ) then 1 else 0

/-- The function `subsequent_mask(size)` from src/transformer.ipynb: the upper-triangular
(diagonal=1) ones tensor of shape `(1, size, size)`, compared `== 0`. -/
def subsequent_mask (size : ℕ) : Fin 1 → Fin size → Fin size → Bool :=
  fun _ i j => triuOnes size 1 i j == 0

/-- C2: `subsequent_mask L` has shape `(1, L, L)` (one leading axis, two
`L`-sized axes, as the type shows) and entry `[0][i][j]` is true iff
`j ≤ i`; for `L = 5`, row 0 allows only column 0 and row 4 allows all
five columns. -/
theorem subsequent_mask_lower_triangular :
    (∀ (L : ℕ) (i j : Fin L),
        subsequent_mask L 0 i j = decide ((j : ℕ) ≤ (i : ℕ))) ∧
    (∀ j : Fin 5, subsequent_mask 5 0 0 j = decide (j = 0)) ∧
    (∀ j : Fin 5, subsequent_mask 5 0 4 j = true) := by
  refine ⟨fun L i j => ?_, by decide, by decide⟩
  simp only [subsequent_mask, triuOnes]
  by_cases h : (j : ℕ) ≤ (i : ℕ)
  · have : ¬ (1 : ℤ) ≤ (j : ℤ) - (i : ℤ) := by omega
    simp [this, h]
  · have : (1 : ℤ) ≤ (j : ℤ) - (i : ℤ) := by omega
    simp [this, h]

/-- Learned state of `LayerNorm.__init__(features, eps=1e-6)`: the scale
vector `a_2` (initialized to ones), the shift vector `b_2` (initialized to
zeros), both of the feature dimension's size, and `eps`. -/
structure LayerNormP (features : ℕ) where
  a_2 : Fin features → ℝ
  b_2 : Fin features → ℝ
  eps : ℝ

/-- Fresh `LayerNorm(features)` as constructed everywhere in the source,
with the default `eps=1e-6`: `a_2 = torch.ones(features)`,
`b_2 = torch.zeros(features)`. -/
def LayerNormInit (features : ℕ) : LayerNormP features :=
  ⟨fun _ => 1, fun _ => 0, 1e-6⟩

/-- Per-position mean over the last (feature) axis: `x.mean(-1)`. -/
noncomputable def rowMean {n : ℕ} (x : Fin n → ℝ) : ℝ := (∑ j, x j) / (n : ℝ)

/-- Per-position sample standard deviation over the last axis: `x.std(-1)`,
which with the default unbiased correction is
`sqrt(Σ (x_j - mean)^2 / (n - 1))`. -/
noncomputable def rowStd {n : ℕ} (x : Fin n → ℝ) : ℝ :=
  Real.sqrt ((∑ j, (x j - rowMean x) ^ 2) / ((n : ℝ) - 1))

/-- The method `LayerNorm.forward(x)` from src/transformer.ipynb:
`self.a_2 * (x - mean) / (std + self.eps) + self.b_2`, with `mean` and
`std` taken over the last axis per position (`keepdim` broadcast). -/
noncomputable def LayerNorm.forward {L n : ℕ} (p : LayerNormP n)
    (x : Matrix (Fin L) (Fin n) ℝ) : Matrix (Fin L) (Fin n) ℝ :=
  fun i j => p.a_2 j * (x i j - rowMean (x i)) / (rowStd (x i) + p.eps) + p.b_2 j

/-- C4: `LayerNorm.forward` computes, per position `i` and feature `j`,
`a_2 j * (x i j - mean) / (std + eps) + b_2 j` where `mean` is the mean and
`std` the sample standard deviation of row `i` (last axis), dividing by
`std + eps` (not by `sqrt(var + eps)`); the default construction has
`eps = 1e-6`, scale `a_2` all ones and shift `b_2` all zeros, each of the
feature dimension's size (their type). -/
theorem layerNorm_forward_formula :
    (∀ {L n : ℕ} (p : LayerNormP n) (x : Matrix (Fin L) (Fin n) ℝ)
        (i : Fin L) (j : Fin n),
      LayerNorm.forward p x i j =
        p.a_2 j * (x i j - (∑ t, x i t) / (n : ℝ)) /
          (Real.sqrt ((∑ t, (x i t - (∑ t, x i t) / (n : ℝ)) ^ 2) / ((n : ℝ) - 1))
            + p.eps) + p.b_2 j) ∧
    (∀ n : ℕ, (LayerNormInit n).eps = 1e-6 ∧
      (∀ j : Fin n, (LayerNormInit n).a_2 j = 1 ∧ (LayerNormInit n).b_2 j = 0)) :=
  ⟨fun _ _ _ _ => rfl, fun _ => ⟨rfl, fun _ => ⟨rfl, rfl⟩⟩⟩

/-- The method `SublayerConnection.forward(x, sublayer)` from
src/transformer.ipynb: `x + self.dropout(sublayer(self.norm(x)))`.  The
module owns its `LayerNorm` parameters `norm` and its dropout; both are
passed explicitly here. -/
noncomputable def SublayerConnection.forward {L n : ℕ} (norm : LayerNormP n)
    (dropout : Matrix (Fin L) (Fin n) ℝ → Matrix (Fin L) (Fin n) ℝ)
    (x : Matrix (Fin L) (Fin n) ℝ)
    (sublayer : Matrix (Fin L) (Fin n) ℝ → Matrix (Fin L) (Fin n) ℝ) :
    Matrix (Fin L) (Fin n) ℝ :=
  x + dropout (sublayer (LayerNorm.forward norm x))

/-- C3: `SublayerConnection.forward` returns exactly
`x + dropout(f(LayerNorm(x)))` — the normalization is applied before the
sublayer `f` (pre-norm) and the residual addend is the original
unnormalized `x`; in particular with identity dropout and identity sublayer
it reduces to `x + LayerNorm(x)`. -/
theorem sublayerConnection_forward_prenorm :
    (∀ {L n : ℕ} (norm : LayerNormP n)
        (dropout : Matrix (Fin L) (Fin n) ℝ → Matrix (Fin L) (Fin n) ℝ)
        (x : Matrix (Fin L) (Fin n) ℝ)
        (f : Matrix (Fin L) (Fin n) ℝ → Matrix (Fin L) (Fin n) ℝ),
      SublayerConnection.forward norm dropout x f =
        x + dropout (f (LayerNorm.forward norm x))) ∧
    (∀ {L n : ℕ} (norm : LayerNormP n) (x : Matrix (Fin L) (Fin n) ℝ),
      SublayerConnection.forward norm id x id = x + LayerNorm.forward norm x) :=
  ⟨fun _ _ _ _ => rfl, fun _ _ => rfl⟩

/-- C1: for every query, key, value and supplied mask (dropout disabled,
`dropout=None`), `attention` computes `scores = (query ⬝ keyᵀ) / sqrt(d_k)`
with `d_k` the last axis of `query`; wherever the mask is false the score
is overwritten with the sentinel `-1e9` before normalization; softmax is
taken over the last (key) axis; and the returned pair is
`(weights ⬝ value, weights)`. -/
theorem attention_computes_scaled_dot_product :
    ∀ {Lq Lk dk dv : ℕ} (query : Matrix (Fin Lq) (Fin dk) ℝ)
      (key : Matrix (Fin Lk) (Fin dk) ℝ) (value : Matrix (Fin Lk) (Fin dv) ℝ)
      (m : Fin Lq → Fin Lk → Bool),
    (∀ i j, attnScores query key i j =
        (∑ t, query i t * key j t) / Real.sqrt (dk : ℝ)) ∧
    (∀ i j, maskedFill m (attnScores query key) i j =
        if m i j then attnScores query key i j else -1e9) ∧
    (∀ i j, softmaxLast (maskedFill m (attnScores query key)) i j =
        Real.exp (maskedFill m (attnScores query key) i j) /
          ∑ t, Real.exp (maskedFill m (attnScores query key) i t)) ∧
    attention query key value (some m) none =
      (fun i c => ∑ j, softmaxLast (maskedFill m (attnScores query key)) i j
          * value j c,
       softmaxLast (maskedFill m (attnScores query key))) :=
  fun _ _ _ _ =>
    ⟨fun _ _ => rfl, fun _ _ => rfl, fun _ _ => rfl, rfl⟩

/-- The method `DecoderLayer.forward(x, memory, src_mask, tgt_mask)` from
src/transformer.ipynb.  The layer owns three cloned (independently
parameterized) sublayer connections; their LayerNorm parameters and
dropout functions are passed as `norms`/`dropouts` indexed by `Fin 3`.
`self_attn` and `src_attn` stand for the two attention modules applied as
functions of (query, key, value, mask). -/
noncomputable def DecoderLayer.forward {L Lm n : ℕ}
    (norms : Fin 3 → LayerNormP n)
    (dropouts : Fin 3 → Matrix (Fin L) (Fin n) ℝ → Matrix (Fin L) (Fin n) ℝ)
    (self_attn : Matrix (Fin L) (Fin n) ℝ → Matrix (Fin L) (Fin n) ℝ →
      Matrix (Fin L) (Fin n) ℝ → Option (Fin L → Fin L → Bool) →
      Matrix (Fin L) (Fin n) ℝ)
    (src_attn : Matrix (Fin L) (Fin n) ℝ → Matrix (Fin Lm) (Fin n) ℝ →
      Matrix (Fin Lm) (Fin n) ℝ → Option (Fin L → Fin Lm → Bool) →
      Matrix (Fin L) (Fin n) ℝ)
    (feed_forward : Matrix (Fin L) (Fin n) ℝ → Matrix (Fin L) (Fin n) ℝ)
    (x : Matrix (Fin L) (Fin n) ℝ) (memory : Matrix (Fin Lm) (Fin n) ℝ)
    (src_mask : Option (Fin L → Fin Lm → Bool))
    (tgt_mask : Option (Fin L → Fin L → Bool)) :
    Matrix (Fin L) (Fin n) ℝ :=
  let m := memory
  let x1 := SublayerConnection.forward (norms 0) (dropouts 0) x
    (fun y => self_attn y y y tgt_mask)
  let x2 := SublayerConnection.forward (norms 1) (dropouts 1) x1
    (fun y => src_attn y m m src_mask)
  SublayerConnection.forward (norms 2) (dropouts 2) x2 feed_forward

/-- The method `Decoder.forward(x, memory, src_mask, tgt_mask)` from
src/transformer.ipynb: run `x` through each cloned layer in order, each
receiving the same `memory`, `src_mask`, `tgt_mask`, then apply the final
`LayerNorm` once. -/
noncomputable def Decoder.forward {L Lm n : ℕ}
    (layers : List (Matrix (Fin L) (Fin n) ℝ → Matrix (Fin Lm) (Fin n) ℝ →
      Option (Fin L → Fin Lm → Bool) → Option (Fin L → Fin L → Bool) →
      Matrix (Fin L) (Fin n) ℝ))
    (norm : LayerNormP n)
    (x : Matrix (Fin L) (Fin n) ℝ) (memory : Matrix (Fin Lm) (Fin n) ℝ)
    (src_mask : Option (Fin L → Fin Lm → Bool))
    (tgt_mask : Option (Fin L → Fin L → Bool)) :
    Matrix (Fin L) (Fin n) ℝ :=
  LayerNorm.forward norm
    (layers.foldl (fun y layer => layer y memory src_mask tgt_mask) x)

/-- C5: `DecoderLayer.forward` applies its three sublayer connections in
this exact order — (1) self-attention with query = key = value = the
running input masked by `tgt_mask`, (2) cross-attention with query = the
current representation and key = value = the encoder memory masked by
`src_mask`, (3) the feed-forward network — and `Decoder.forward` applies
its layers sequentially (each layer receiving the same fixed memory and
masks) followed by exactly one final LayerNorm after the last layer. -/
theorem decoder_layer_and_stack_order :
    (∀ {L Lm n : ℕ} (norms : Fin 3 → LayerNormP n)
        (dropouts : Fin 3 → Matrix (Fin L) (Fin n) ℝ → Matrix (Fin L) (Fin n) ℝ)
        (self_attn : Matrix (Fin L) (Fin n) ℝ → Matrix (Fin L) (Fin n) ℝ →
          Matrix (Fin L) (Fin n) ℝ → Option (Fin L → Fin L → Bool) →
          Matrix (Fin L) (Fin n) ℝ)
        (src_attn : Matrix (Fin L) (Fin n) ℝ → Matrix (Fin Lm) (Fin n) ℝ →
          Matrix (Fin Lm) (Fin n) ℝ → Option (Fin L → Fin Lm → Bool) →
          Matrix (Fin L) (Fin n) ℝ)
        (ff : Matrix (Fin L) (Fin n) ℝ → Matrix (Fin L) (Fin n) ℝ)
        (x : Matrix (Fin L) (Fin n) ℝ) (memory : Matrix (Fin Lm) (Fin n) ℝ)
        (sm : Option (Fin L → Fin Lm → Bool)) (tm : Option (Fin L → Fin L → Bool)),
      DecoderLayer.forward norms dropouts self_attn src_attn ff x memory sm tm =
        SublayerConnection.forward (norms 2) (dropouts 2)
          (SublayerConnection.forward (norms 1) (dropouts 1)
            (SublayerConnection.forward (norms 0) (dropouts 0) x
              (fun y => self_attn y y y tm))
            (fun y => src_attn y memory memory sm))
          ff) ∧
    (∀ {L Lm n : ℕ} (norm : LayerNormP n)
        (x : Matrix (Fin L) (Fin n) ℝ) (memory : Matrix (Fin Lm) (Fin n) ℝ)
        (sm : Option (Fin L → Fin Lm → Bool)) (tm : Option (Fin L → Fin L → Bool)),
      Decoder.forward [] norm x memory sm tm = LayerNorm.forward norm x) ∧
    (∀ {L Lm n : ℕ}
        (l : Matrix (Fin L) (Fin n) ℝ → Matrix (Fin Lm) (Fin n) ℝ →
          Option (Fin L → Fin Lm → Bool) → Option (Fin L → Fin L → Bool) →
          Matrix (Fin L) (Fin n) ℝ)
        (ls : List (Matrix (Fin L) (Fin n) ℝ → Matrix (Fin Lm) (Fin n) ℝ →
          Option (Fin L → Fin Lm → Bool) → Option (Fin L → Fin L → Bool) →
          Matrix (Fin L) (Fin n) ℝ))
        (norm : LayerNormP n)
        (x : Matrix (Fin L) (Fin n) ℝ) (memory : Matrix (Fin Lm) (Fin n) ℝ)
        (sm : Option (Fin L → Fin Lm → Bool)) (tm : Option (Fin L → Fin L → Bool)),
      Decoder.forward (l :: ls) norm x memory sm tm =
        Decoder.forward ls norm (l x memory sm tm) memory sm tm) :=
  ⟨fun _ _ _ _ _ _ _ _ _ => rfl, fun _ _ _ _ _ => rfl,
   fun _ _ _ _ _ _ _ => rfl⟩

/-- Helper: each row of `softmaxLast` sums to 1 when the key axis is
nonempty (every exponential is positive, so the normalizing denominator is
a positive sum). -/
theorem softmaxLast_row_sum {Lq Lk : ℕ} (hLk : 0 < Lk)
    (s : Matrix (Fin Lq) (Fin Lk) ℝ) (i : Fin Lq) :
    ∑ j, softmaxLast s i j = 1 := by
  have hne : (Finset.univ : Finset (Fin Lk)).Nonempty := ⟨⟨0, hLk⟩, by simp⟩
  have hpos : 0 < ∑ k, Real.exp (s i k) :=
    Finset.sum_pos (fun k _ => Real.exp_pos _) hne
  simp only [softmaxLast]
  rw [← Finset.sum_div, div_self (ne_of_gt hpos)]

/-- One concrete realization of `nn.Dropout(p = 0.1)` in training mode on a
`1 × 2` weight tensor: the draw that zeroes entry `(0, 0)` and rescales the
survivors by `1 / (1 - 0.1) = 10/9`, exactly as `nn.Dropout` does. -/
noncomputable def dropoutDraw :
    Matrix (Fin 1) (Fin 2) ℝ → Matrix (Fin 1) (Fin 2) ℝ :=
  fun w i j => if j = 0 then 0 else w i j * (10 / 9)

/-- C6 counterexample: the attention-weight tensor returned by `attention`
is the tensor after the optional dropout, so on a call in training mode
(here with zero queries and keys, no mask, and a dropout draw of
`nn.Dropout(0.1)` that zeroes one of the two uniform weights) the returned
unmasked query row sums to `5/9`, not 1. -/
theorem attention_weights_dropout_row_sum_ne_one :
    ∑ j, (@attention 1 2 1 1 (fun _ _ => (0 : ℝ)) (fun _ _ => (0 : ℝ))
        (fun _ _ => (0 : ℝ)) none (some dropoutDraw)).2 0 j ≠ 1 := by
  have h : ∀ j : Fin 2,
      (@attention 1 2 1 1 (fun _ _ => (0 : ℝ)) (fun _ _ => (0 : ℝ))
        (fun _ _ => (0 : ℝ)) none (some dropoutDraw)).2 0 j
        = dropoutDraw (softmaxLast (@attnScores 1 2 1
            (fun _ _ => (0 : ℝ)) (fun _ _ => (0 : ℝ)))) 0 j :=
    fun j => rfl
  rw [Fin.sum_univ_two, h 0, h 1]
  simp only [dropoutDraw, softmaxLast, attnScores]
  norm_num [Fin.sum_univ_two, Fin.sum_univ_one, Real.exp_zero]

/-- C6 (amended): for every call to `attention` with dropout disabled
(`dropout=None`) and a nonempty key axis, every query row of the returned
attention-weight tensor — in particular every unmasked one, with any mask
or no mask supplied — sums to 1 across the key axis. -/
theorem attention_weights_row_sum_one {Lq Lk dk dv : ℕ}
    (query : Matrix (Fin Lq) (Fin dk) ℝ) (key : Matrix (Fin Lk) (Fin dk) ℝ)
    (value : Matrix (Fin Lk) (Fin dv) ℝ)
    (mask : Option (Fin Lq → Fin Lk → Bool)) (hLk : 0 < Lk) (i : Fin Lq) :
    ∑ j, (attention query key value mask none).2 i j = 1 := by
  cases mask with
  | none => exact softmaxLast_row_sum hLk _ i
  | some m => exact softmaxLast_row_sum hLk _ i

/-- Witness for the amended C6 at a concrete input: a `1 × 1` call with
zero tensors and no mask. -/
theorem attention_weights_row_sum_one_witness :
    ∑ j, (@attention 1 1 1 1 (fun _ _ => (0 : ℝ)) (fun _ _ => (0 : ℝ))
        (fun _ _ => (0 : ℝ)) none none).2 0 j = 1 :=
  attention_weights_row_sum_one _ _ _ none (by decide) 0

/-- Result of `MultiHeadedAttention.__init__(h, d_model)` when the
`assert d_model % h == 0` passes: the per-head dimension
`d_k = d_model // h` and the head count `h`. -/
structure MHAInit where
  d_k : ℕ
  h : ℕ
  deriving DecidableEq

/-- The constructor `MultiHeadedAttention.__init__(h, d_model)` from
src/transformer.ipynb: `assert d_model % h == 0` (an `AssertionError`
aborts construction, embedded as `none`), then `self.d_k = d_model // h`
and `self.h = h`. -/
def MultiHeadedAttention.init (h d_model : ℕ) : Option MHAInit :=
  if d_model % h = 0 then some ⟨d_model / h, h⟩ else none

/-- C7: constructing a `MultiHeadedAttention` succeeds exactly when
`d_model % h == 0` (otherwise the assert rejects it before any forward
call), and on success the per-head dimension is `d_k = d_model / h`. -/
theorem mha_construction_requires_divisibility (h d_model : ℕ) :
    ((MultiHeadedAttention.init h d_model).isSome ↔ d_model % h = 0) ∧
    (∀ cfg : MHAInit, MultiHeadedAttention.init h d_model = some cfg →
      cfg.d_k = d_model / h ∧ cfg.h = h) := by
  constructor
  · by_cases hd : d_model % h = 0 <;> simp [MultiHeadedAttention.init, hd]
  · intro cfg hcfg
    by_cases hd : d_model % h = 0 <;>
      simp [MultiHeadedAttention.init, hd] at hcfg
    cases hcfg
    exact ⟨rfl, rfl⟩

/-- Witness for C7 at concrete inputs: `h = 8`, `d_model = 512` succeeds
with `d_k = 64`; `h = 8`, `d_model = 100` is rejected. -/
theorem mha_construction_requires_divisibility_witness :
    (MultiHeadedAttention.init 8 512).isSome = true ∧
    ((⟨64, 8⟩ : MHAInit).d_k = 512 / 8 ∧ (⟨64, 8⟩ : MHAInit).h = 8) ∧
    (MultiHeadedAttention.init 8 100).isSome = false :=
  ⟨(mha_construction_requires_divisibility 8 512).1.mpr (by decide),
   (mha_construction_requires_divisibility 8 512).2 ⟨64, 8⟩ (by decide),
   by decide⟩

/-- Learned state of one `nn.Linear(din, dout)`: weight matrix and bias
vector. -/
structure LinearP (din dout : ℕ) where
  weight : Matrix (Fin dout) (Fin din) ℝ
  bias : Fin dout → ℝ

/-- Application of `nn.Linear`: `y = x Wᵀ + b`, rowwise over positions. -/
noncomputable def Linear.forward {L din dout : ℕ} (p : LinearP din dout)
    (x : Matrix (Fin L) (Fin din) ℝ) : Matrix (Fin L) (Fin dout) ℝ :=
  fun i o => (∑ t, x i t * p.weight o t) + p.bias o

/-- Mutable state of a `MultiHeadedAttention` module with `hh` heads and
per-head dimension `dk` (so `d_model = hh * dk`): the four learned linear
projections `self.linears` (the parameters), the retained last-computed
attention weights `self.attn` (initialized `None`, per head over some
sequence length), and the module's `self.dropout` function. -/
structure MHAState (hh dk : ℕ) where
  linears : Fin 4 → LinearP (hh * dk) (hh * dk)
  attn : Option ((L : ℕ) × (Fin hh → Matrix (Fin L) (Fin L) ℝ))
  dropout : ∀ {a b : ℕ}, Matrix (Fin a) (Fin b) ℝ → Matrix (Fin a) (Fin b) ℝ

/-- Index of head `a`, offset `t` inside the flattened `d_model = hh * dk`
axis: the meaning of `.view(nbatches, -1, h, d_k).transpose(1, 2)`. -/
def headIdx {hh dk : ℕ} (a : Fin hh) (t : Fin dk) : Fin (hh * dk) :=
  ⟨a.1 * dk + t.1, by
    have h1 : a.1 * dk + t.1 < (a.1 + 1) * dk := by
      have ht := t.isLt
      calc a.1 * dk + t.1 < a.1 * dk + dk := by omega
        _ = (a.1 + 1) * dk := by ring
    exact lt_of_lt_of_le h1 (Nat.mul_le_mul_right dk a.isLt)⟩

/-- A flattened index forces the per-head dimension to be positive. -/
theorem dk_pos_of_fin {hh dk : ℕ} (c : Fin (hh * dk)) : 0 < dk := by
  rcases Nat.eq_zero_or_pos dk with h | h
  · subst h
    exact absurd c.isLt (by simp)
  · exact h

/-- Head of a flattened `d_model` index. -/
def headOf {hh dk : ℕ} (c : Fin (hh * dk)) : Fin hh :=
  ⟨c.1 / dk, Nat.div_lt_of_lt_mul (Nat.mul_comm hh dk ▸ c.isLt)⟩

/-- Offset within the head of a flattened `d_model` index. -/
def offOf {hh dk : ℕ} (c : Fin (hh * dk)) : Fin dk :=
  ⟨c.1 % dk, Nat.mod_lt _ (dk_pos_of_fin c)⟩

/-- Reshape `(L, h*d_k) → (h, L, d_k)`: the
`.view(nbatches, -1, self.h, self.d_k).transpose(1, 2)` step. -/
def headSplit {L hh dk : ℕ} (y : Matrix (Fin L) (Fin (hh * dk)) ℝ) :
    Fin hh → Matrix (Fin L) (Fin dk) ℝ :=
  fun a i t => y i (headIdx a t)

/-- Concatenate heads back, `(h, L, d_k) → (L, h*d_k)`: the
`.transpose(1, 2).contiguous().view(nbatches, -1, self.h * self.d_k)`
step. -/
def headConcat {L hh dk : ℕ} (z : Fin hh → Matrix (Fin L) (Fin dk) ℝ) :
    Matrix (Fin L) (Fin (hh * dk)) ℝ :=
  fun i c => z (headOf c) i (offOf c)

/-- The method `MultiHeadedAttention.forward(query, key, value, mask)` from
src/transformer.ipynb: project via `self.linears[0..2]`, split into heads,
run `attention` per head with the mask broadcast unchanged across heads
(`mask.unsqueeze(1)`) and the module dropout, concatenate, apply the final
linear `self.linears[-1]`.  The single assignment in the method body,
`self.attn = p_attn`, makes it stateful; it is embedded state-passing and
returns the updated module state next to the output. -/
noncomputable def MultiHeadedAttention.forward {hh dk L : ℕ}
    (st : MHAState hh dk)
    (query key value : Matrix (Fin L) (Fin (hh * dk)) ℝ)
    (mask : Option (Fin L → Fin L → Bool)) :
    Matrix (Fin L) (Fin (hh * dk)) ℝ × MHAState hh dk :=
  let q1 := headSplit (Linear.forward (st.linears 0) query)
  let k1 := headSplit (Linear.forward (st.linears 1) key)
  let v1 := headSplit (Linear.forward (st.linears 2) value)
  let res := fun a : Fin hh =>
    attention (q1 a) (k1 a) (v1 a) mask (some (@MHAState.dropout hh dk st L L))
  let x := headConcat (fun a => (res a).1)
  let p_attn := fun a => (res a).2
  (Linear.forward (st.linears 3) x, { st with attn := some ⟨L, p_attn⟩ })

/-- C8: forward evaluation only reads the learned parameters, never writes
them.  Every forward method of the source except
`MultiHeadedAttention.forward` contains no assignment at all and is
embedded as a pure function of its parameters and inputs
(`LayerNorm.forward`, `attention`, `SublayerConnection.forward`,
`DecoderLayer.forward`, `Decoder.forward`, `Linear.forward`), so
parameters are untouched by construction; the one forward that does assign
(`self.attn = p_attn` in `MultiHeadedAttention.forward`) leaves the
learned parameter tensors `self.linears` (and the dropout) unchanged — the
post-state differs from the pre-state at most in the retained `attn`
inspection field. -/
theorem forward_does_not_mutate_parameters {hh dk L : ℕ}
    (st : MHAState hh dk)
    (query key value : Matrix (Fin L) (Fin (hh * dk)) ℝ)
    (mask : Option (Fin L → Fin L → Bool)) :
    (MultiHeadedAttention.forward st query key value mask).2.linears
        = st.linears ∧
    (MultiHeadedAttention.forward st query key value mask).2 =
      { st with
        attn := (MultiHeadedAttention.forward st query key value mask).2.attn } :=
  ⟨rfl, rfl⟩

/-- Element `i` of
`torch.exp(torch.arange(0, d_model, 2) * -(math.log(10000.0) / d_model))`
from `PositionalEncoding.__init__`: the arange yields `2*i`, so this is
`exp(2 i * -(log 10000 / d_model))`. -/
noncomputable def div_term (d_model : ℕ) (i : ℕ) : ℝ :=
  Real.exp ((2 * i : ℕ) * -(Real.log 10000 / (d_model : ℝ)))

/-- The precomputed positional-encoding buffer `self.pe` (one row per
position): even feature indices `2i` hold `sin(pos * div_term i)`, odd
indices `2i+1` hold `cos(pos * div_term i)` (`pe[:, 0::2]` and
`pe[:, 1::2]` in `PositionalEncoding.__init__`). -/
noncomputable def peTable (d_model : ℕ) (pos : ℕ) (j : Fin d_model) : ℝ :=
  if j.1 % 2 = 0 then Real.sin ((pos : ℝ) * div_term d_model (j.1 / 2))
  else Real.cos ((pos : ℝ) * div_term d_model (j.1 / 2))

/-- The method `PositionalEncoding.forward(x)` from src/transformer.ipynb:
`x = x + self.pe[:, : x.size(1)]` then `self.dropout(x)`.  The buffer
`self.pe` has `max_len` rows, so the slice keeps `min L max_len` rows.
PyTorch broadcasting of the elementwise add accepts the slice when its row
count equals `L` (added row by row) or equals 1 (its single row, position
0, is silently broadcast to every position); any other mismatch raises a
`RuntimeError`, embedded as `none`. -/
noncomputable def PositionalEncoding.forward {L d : ℕ} (max_len : ℕ)
    (dropout : Matrix (Fin L) (Fin d) ℝ → Matrix (Fin L) (Fin d) ℝ)
    (x : Matrix (Fin L) (Fin d) ℝ) : Option (Matrix (Fin L) (Fin d) ℝ) :=
  if min L max_len = L then
    some (dropout (fun i j => x i j + peTable d i.1 j))
  else if min L max_len = 1 then
    some (dropout (fun i j => x i j + peTable d 0 j))
  else none

/-- C9 counterexample: with a table of `max_len = 1` row and an input of
length `L = 2 > max_len`, the add broadcasts the single stored row instead
of raising, so the forward pass returns a silently corrected result rather
than failing: the claim that every overlong input is a hard error is false
for `max_len = 1`. -/
theorem positional_encoding_overlong_broadcasts :
    @PositionalEncoding.forward 2 1 1 id (fun _ _ => (0 : ℝ)) =
      some (fun _ j => 0 + peTable 1 0 j) := by
  norm_num [PositionalEncoding.forward]

/-- C9 (amended): whenever the table has at least two rows (`max_len ≥ 2`,
in particular the default `max_len = 5000`), an input longer than
`max_len` makes `PositionalEncoding.forward` fail hard (no silently
corrected or truncated result), and an input of length `L ≤ max_len` gets
the precomputed table entries for positions `0 .. L-1` added elementwise
(dropout taken as the identity, i.e. inference mode). -/
theorem positional_encoding_maxlen_behavior {L d max_len : ℕ}
    (x : Matrix (Fin L) (Fin d) ℝ) (h2 : 2 ≤ max_len) :
    (L ≤ max_len →
      PositionalEncoding.forward max_len id x =
        some (fun i j => x i j + peTable d i.1 j)) ∧
    (max_len < L → PositionalEncoding.forward max_len id x = none) := by
  constructor
  · intro hL
    have : min L max_len = L := min_eq_left hL
    simp [PositionalEncoding.forward, this]
  · intro hL
    have hmin : min L max_len = max_len := min_eq_right (le_of_lt hL)
    have h1 : ¬ (min L max_len = L) := by omega
    have h2' : ¬ (min L max_len = 1) := by omega
    simp [PositionalEncoding.forward, h1, h2']

/-- Witness for the amended C9 at concrete inputs: with the default
`max_len = 5000`, a length-3 input gets the table rows 0..2 added; with
`max_len = 2`, a length-3 input is a hard error. -/
theorem positional_encoding_maxlen_behavior_witness :
    @PositionalEncoding.forward 3 1 5000 id (fun _ _ => (0 : ℝ)) =
      some (fun i j => (0 : ℝ) + peTable 1 i.1 j) ∧
    @PositionalEncoding.forward 3 1 2 id (fun _ _ => (0 : ℝ)) = none :=
  ⟨(positional_encoding_maxlen_behavior (fun _ _ => (0 : ℝ))
      (by norm_num)).1 (by norm_num),
   (@positional_encoding_maxlen_behavior 3 1 2 (fun _ _ => (0 : ℝ))
      (by norm_num)).2 (by norm_num)⟩

/-- C10: on a call to `attention` with dropout disabled and a mask whose
entries for query row `i` are all false, every masked score of that row is
replaced by the same finite sentinel `-1e9`, the returned weights of the
row are exactly uniform (`1 / key_len` each), and the returned output row
is the exact average of the value rows — all values finite (the embedding
is over `ℝ`, where the uniform weights and the average are exact; no
degenerate non-number arises since the sentinel is finite). -/
theorem attention_fully_masked_row_uniform {Lq Lk dk dv : ℕ}
    (query : Matrix (Fin Lq) (Fin dk) ℝ) (key : Matrix (Fin Lk) (Fin dk) ℝ)
    (value : Matrix (Fin Lk) (Fin dv) ℝ) (m : Fin Lq → Fin Lk → Bool)
    (i : Fin Lq) (hLk : 0 < Lk) (hrow : ∀ j, m i j = false) :
    (∀ j, maskedFill m (attnScores query key) i j = -1e9) ∧
    (∀ j, (attention query key value (some m) none).2 i j = 1 / (Lk : ℝ)) ∧
    (∀ c, (attention query key value (some m) none).1 i c =
      (∑ j, value j c) / (Lk : ℝ)) := by
  have hfill : ∀ j, maskedFill m (attnScores query key) i j = -1e9 := by
    intro j
    simp [maskedFill, hrow j]
  have hsum : ∑ k, Real.exp (maskedFill m (attnScores query key) i k)
      = (Lk : ℝ) * Real.exp (-1e9) := by
    rw [Finset.sum_congr rfl (fun k _ => by rw [hfill k])]
    simp [Finset.sum_const, Finset.card_univ, nsmul_eq_mul]
  have hw : ∀ j, (attention query key value (some m) none).2 i j
      = 1 / (Lk : ℝ) := by
    intro j
    show softmaxLast (maskedFill m (attnScores query key)) i j = 1 / (Lk : ℝ)
    simp only [softmaxLast]
    rw [hfill j, hsum, mul_comm, ← div_div, div_self (Real.exp_ne_zero _)]
  refine ⟨hfill, hw, fun c => ?_⟩
  show (∑ j, softmaxLast (maskedFill m (attnScores query key)) i j * value j c)
      = (∑ j, value j c) / (Lk : ℝ)
  have hw' : ∀ j, softmaxLast (maskedFill m (attnScores query key)) i j
      = 1 / (Lk : ℝ) := hw
  rw [Finset.sum_congr rfl (fun j _ => by rw [hw' j])]
  rw [← Finset.mul_sum, one_div, inv_mul_eq_div]

/-- Witness for C10 at a concrete input: two keys, all-false mask, unit
values; the returned weight is `1/2` and the output entry is the average
of the two value entries. -/
theorem attention_fully_masked_row_uniform_witness :
    (@attention 1 2 1 1 (fun _ _ => (0 : ℝ)) (fun _ _ => (0 : ℝ))
        (fun _ _ => (1 : ℝ)) (some fun _ _ => false) none).2 0 0
      = 1 / ((2 : ℕ) : ℝ) ∧
    (@attention 1 2 1 1 (fun _ _ => (0 : ℝ)) (fun _ _ => (0 : ℝ))
        (fun _ _ => (1 : ℝ)) (some fun _ _ => false) none).1 0 0
      = (∑ j : Fin 2, (1 : ℝ)) / ((2 : ℕ) : ℝ) :=
  ⟨(attention_fully_masked_row_uniform (fun _ _ => (0 : ℝ))
      (fun _ _ => (0 : ℝ)) (fun _ _ => (1 : ℝ)) (fun _ _ => false) 0
      (by decide) (fun _ => rfl)).2.1 0,
   (attention_fully_masked_row_uniform (fun _ _ => (0 : ℝ))
      (fun _ _ => (0 : ℝ)) (fun _ _ => (1 : ℝ)) (fun _ _ => false) 0
      (by decide) (fun _ => rfl)).2.2 0⟩
